import Mathlib

/-!
Verification of the asset emitter in
`.agents/skills/agentation-ui-motion/scripts/apply_agentation_motion.py`.

The script resolves the packaged CSS asset at
`Path(__file__).resolve().parent.parent / "assets" / "agentation-motion.css"`,
prints a diagnostic and returns 1 when the asset is missing, otherwise reads
the asset text and either writes it to stdout (when `--out` is the exact
string `-`, the default) or creates the parent directories of the destination and
writes the text to the destination file.

We embed the script as a pure function over an explicit filesystem model.
Paths are lists of components (absolute, rooted at `[]`, which is always a
directory).  The filesystem is an association list from paths to entries.
The run result records the process outcome, the stdout and stderr text, the
final filesystem and a trace of the I/O effects in order.
-/

namespace AgentationMotion

/-- A filesystem path as its list of components (after the root). -/
abbrev FsPath := List String

/-- A filesystem entry: a regular file with text content, or a directory. -/
inductive Entry where
  | file (content : String)
  | dir
deriving DecidableEq

/-- The filesystem: an association list from absolute paths to entries.
The root `[]` is implicitly always a directory. -/
structure FS where
  entries : List (FsPath × Entry)
deriving DecidableEq

/-- Lookup in an association list of path/entry pairs. -/
def lookupEntries : List (FsPath × Entry) → FsPath → Option Entry
  | [], _ => none
  | (q, e) :: rest, p => if q = p then some e else lookupEntries rest p

/-- What exists at path `p`.  The root `[]` is always a directory. -/
def FS.lookup (fs : FS) (p : FsPath) : Option Entry :=
  if p = [] then some Entry.dir else lookupEntries fs.entries p

/-- Replace (or create) the entry at `p`. -/
def FS.insert (fs : FS) (p : FsPath) (e : Entry) : FS :=
  ⟨(p, e) :: fs.entries.filter (fun pe => pe.1 ≠ p)⟩

/-- Whether an optional entry is a regular file. -/
def isFileEntry : Option Entry → Bool
  | some (Entry.file _) => true
  | _ => false

/-- One step of `mkdir(exist_ok=True)`: succeeds when `p` is absent (creating a
directory) or already a directory; fails (`none`) when a regular file sits at
`p`, as `Path.mkdir` raises there. -/
def FS.mkdirOne (fs : FS) (p : FsPath) : Option FS :=
  match fs.lookup p with
  | some Entry.dir => some fs
  | some (Entry.file _) => none
  | none => some (fs.insert p Entry.dir)

/-- The effect of `mkdir(parents=True, exist_ok=True)` over a list of directories in order,
keeping the partially-updated filesystem when a step fails. -/
def FS.mkdirAll (fs : FS) : List FsPath → FS × Bool
  | [] => (fs, true)
  | p :: rest =>
    match fs.mkdirOne p with
    | none => (fs, false)
    | some fs1 => FS.mkdirAll fs1 rest

/-- The model of `Path.write_text`: fails (`none`) when a directory sits at `p`, as
opening a directory for writing raises; otherwise creates or overwrites the
file. -/
def FS.writeFile (fs : FS) (p : FsPath) (c : String) : Option FS :=
  match fs.lookup p with
  | some Entry.dir => none
  | _ => some (fs.insert p (Entry.file c))

/-- The model of `Path.read_text`: the content when a regular file sits at `p`, `none`
(an unhandled runtime error) otherwise. -/
def FS.readText (fs : FS) (p : FsPath) : Option String :=
  match fs.lookup p with
  | some (Entry.file c) => some c
  | _ => none

/-- All nonempty prefixes of a path, shortest first: the chain of
directories `mkdir(parents=True)` ensures. -/
def pathChain : FsPath → List FsPath
  | [] => []
  | c :: rest => [c] :: (pathChain rest).map (fun q => c :: q)

/-- The model of `Path.parent` (for the non-root paths the script uses). -/
def parentPath (p : FsPath) : FsPath := p.dropLast

/-- Split a character list at every slash. -/
def splitSlash : List Char → List (List Char)
  | [] => [[]]
  | c :: rest =>
    if c = '/' then [] :: splitSlash rest
    else
      match splitSlash rest with
      | [] => [[c]]
      | h :: t => (c :: h) :: t

/-- Path construction from a string, as in pathlib: split on `/`, dropping empty
components and `.` components, as `PurePosixPath` normalizes them away. -/
def strToPath (s : String) : FsPath :=
  ((splitSlash s.toList).map (fun cs => String.mk cs)).filter
    (fun c => ¬(c = "" ∨ c = "."))

/-- Resolve a destination string against the working directory: strings
beginning with a slash stand alone, relative ones are joined to the working
directory. -/
def resolvePath (cwd : FsPath) (s : String) : FsPath :=
  if s.toList.head? = some '/' then strToPath s else cwd ++ strToPath s

/-- Rendering of an absolute path, as `str()` of a pathlib path. -/
def pathToString (p : FsPath) : String :=
  "/" ++ String.intercalate "/" p

/-- The resolved asset path, anchored at the resolved location of the
script itself: `Path(__file__).resolve().parent.parent / "assets" /
"agentation-motion.css"`. -/
def assetPath (scriptPath : FsPath) : FsPath :=
  parentPath (parentPath scriptPath) ++ ["assets", "agentation-motion.css"]

/-- The observable I/O effects of a run, in order. -/
inductive Effect where
  | statRead (p : FsPath)
  | contentRead (p : FsPath)
  | wroteStdout (s : String)
  | wroteFile (p : FsPath) (s : String)
deriving DecidableEq

/-- How the process ended: a controlled `SystemExit` with a code, or an
uncaught runtime exception (traceback, nonzero status). -/
inductive Outcome where
  | exited (code : Nat)
  | crashed
deriving DecidableEq

/-- The observable result of one invocation. -/
structure RunResult where
  outcome : Outcome
  stdout : String
  stderr : String
  fs : FS
  trace : List Effect
deriving DecidableEq

/-- The body of `main()` after argument parsing: `out` is the value of
`--out`, `scriptPath` the resolved script location, `cwd` the working
directory, `fs` the filesystem at invocation time. -/
def runMain (scriptPath cwd : FsPath) (out : String) (fs : FS) : RunResult :=
  let asset := assetPath scriptPath
  if fs.lookup asset = none then
    { outcome := Outcome.exited 1
      stdout := ""
      stderr := "Asset not found: " ++ pathToString asset ++ "\n"
      fs := fs
      trace := [Effect.statRead asset] }
  else
    match fs.readText asset with
    | none =>
      { outcome := Outcome.crashed, stdout := "", stderr := "", fs := fs
        trace := [Effect.statRead asset, Effect.contentRead asset] }
    | some css =>
      if out = "-" then
        { outcome := Outcome.exited 0, stdout := css, stderr := "", fs := fs
          trace := [Effect.statRead asset, Effect.contentRead asset,
                    Effect.wroteStdout css] }
      else
        let outPath := resolvePath cwd out
        let md := fs.mkdirAll (pathChain (parentPath outPath))
        if md.2 = false then
          { outcome := Outcome.crashed, stdout := "", stderr := "", fs := md.1
            trace := [Effect.statRead asset, Effect.contentRead asset] }
        else
          match md.1.writeFile outPath css with
          | none =>
            { outcome := Outcome.crashed, stdout := "", stderr := "",
              fs := md.1
              trace := [Effect.statRead asset, Effect.contentRead asset] }
          | some fs2 =>
            { outcome := Outcome.exited 0, stdout := "", stderr := "",
              fs := fs2
              trace := [Effect.statRead asset, Effect.contentRead asset,
                        Effect.wroteFile outPath css] }

/-- Argument parsing: `--out` defaults to `-`; `--out v` and `--out=v` set it;
anything else is a usage error. -/
def parseOut : List String → Option String
  | [] => some "-"
  | ["--out", v] => some v
  | [s] => if s.take 6 = "--out=" then some (s.drop 6) else none
  | _ => none

/-- The whole script: parse the arguments, then run `main`; a usage error
exits with the argparse status 2 before touching the filesystem. -/
def runProgram (scriptPath cwd : FsPath) (argv : List String) (fs : FS) :
    RunResult :=
  match parseOut argv with
  | some out => runMain scriptPath cwd out fs
  | none =>
    { outcome := Outcome.exited 2, stdout := "", stderr := "usage", fs := fs
      trace := [] }

/-- The paths read (stat or content read) in a trace. -/
def readPaths (tr : List Effect) : List FsPath :=
  tr.filterMap (fun e =>
    match e with
    | Effect.statRead p => some p
    | Effect.contentRead p => some p
    | _ => none)

/-- Does the trace write to stdout? -/
def hasStdoutWrite (tr : List Effect) : Bool :=
  tr.any (fun e => match e with | Effect.wroteStdout _ => true | _ => false)

/-- Does the trace write a file? -/
def hasFileWrite (tr : List Effect) : Bool :=
  tr.any (fun e => match e with | Effect.wroteFile _ _ => true | _ => false)

/-! ### Auxiliary lemmas on the filesystem model -/

theorem lookupEntries_cons (a : FsPath) (e : Entry)
    (rest : List (FsPath × Entry)) (p : FsPath) :
    lookupEntries ((a, e) :: rest) p =
      if a = p then some e else lookupEntries rest p := rfl

theorem lookupEntries_filter_ne (l : List (FsPath × Entry)) (p q : FsPath)
    (h : q ≠ p) :
    lookupEntries (l.filter (fun pe => pe.1 ≠ p)) q = lookupEntries l q := by
  induction l with
  | nil => rfl
  | cons a rest ih =>
    obtain ⟨a1, e⟩ := a
    by_cases ha : a1 = p
    · rw [List.filter_cons_of_neg (by simp [ha]), ih, lookupEntries_cons,
        if_neg (by rw [ha]; exact fun hc => h hc.symm)]
    · rw [List.filter_cons_of_pos (by simp [ha]), lookupEntries_cons,
        lookupEntries_cons]
      by_cases haq : a1 = q
      · rw [if_pos haq, if_pos haq]
      · rw [if_neg haq, if_neg haq, ih]

theorem FS.lookup_insert (fs : FS) (p q : FsPath) (e : Entry) (hp : p ≠ []) :
    (fs.insert p e).lookup q = if q = p then some e else fs.lookup q := by
  unfold FS.lookup FS.insert
  by_cases hq : q = []
  · have hqp : ¬(q = p) := fun hc => hp (hc ▸ hq)
    rw [if_pos hq, if_neg hqp, if_pos hq]
  · rw [if_neg hq]
    by_cases hqp : q = p
    · rw [if_pos hqp, lookupEntries_cons, if_pos hqp.symm]
    · rw [if_neg hqp, if_neg hq, lookupEntries_cons,
        if_neg (fun hc : p = q => hqp hc.symm)]
      exact lookupEntries_filter_ne fs.entries p q hqp

theorem FS.lookup_nil (fs : FS) : fs.lookup [] = some Entry.dir := by
  unfold FS.lookup
  rw [if_pos rfl]

theorem FS.mkdirOne_spec (fs fs1 : FS) (p : FsPath)
    (h : fs.mkdirOne p = some fs1) :
    fs1.lookup p = some Entry.dir ∧
      ∀ q, q ≠ p → fs1.lookup q = fs.lookup q := by
  unfold FS.mkdirOne at h
  rcases hl : fs.lookup p with _ | e
  · rw [hl] at h
    have hp : p ≠ [] := by
      intro hc
      rw [hc, fs.lookup_nil] at hl
      exact Option.noConfusion hl
    have hfs1 : fs1 = fs.insert p Entry.dir := by
      injection h with h1
      exact h1.symm
    subst hfs1
    constructor
    · rw [FS.lookup_insert fs p p Entry.dir hp, if_pos rfl]
    · intro q hq
      rw [FS.lookup_insert fs p q Entry.dir hp, if_neg hq]
  · rw [hl] at h
    cases e with
    | file c => exact Option.noConfusion h
    | dir =>
      have hfs1 : fs1 = fs := by
        injection h with h1
        exact h1.symm
      subst hfs1
      exact ⟨hl, fun q _ => rfl⟩

theorem FS.mkdirOne_not_file (fs : FS) (p : FsPath)
    (h : isFileEntry (fs.lookup p) = false) :
    ∃ fs1, fs.mkdirOne p = some fs1 := by
  unfold FS.mkdirOne
  rcases hl : fs.lookup p with _ | e
  · exact ⟨fs.insert p Entry.dir, rfl⟩
  · cases e with
    | file c => rw [hl] at h; exact Bool.noConfusion h
    | dir => exact ⟨fs, rfl⟩

theorem FS.mkdirAll_spec (ps : List FsPath) (fs : FS)
    (h : ∀ p ∈ ps, isFileEntry (fs.lookup p) = false) :
    (fs.mkdirAll ps).2 = true ∧
      (∀ p ∈ ps, (fs.mkdirAll ps).1.lookup p = some Entry.dir) ∧
      (∀ q, q ∉ ps → (fs.mkdirAll ps).1.lookup q = fs.lookup q) := by
  induction ps generalizing fs with
  | nil => exact ⟨rfl, fun p hp => absurd hp (List.not_mem_nil p), fun q _ => rfl⟩
  | cons p rest ih =>
    obtain ⟨fs1, h1⟩ := fs.mkdirOne_not_file p (h p (List.mem_cons_self p rest))
    obtain ⟨hdir, hother⟩ := FS.mkdirOne_spec fs fs1 p h1
    have hall : fs.mkdirAll (p :: rest) = fs1.mkdirAll rest := by
      show (match fs.mkdirOne p with
            | none => (fs, false)
            | some fs2 => fs2.mkdirAll rest) = fs1.mkdirAll rest
      rw [h1]
    have hrest : ∀ q ∈ rest, isFileEntry (fs1.lookup q) = false := by
      intro q hq
      by_cases hqp : q = p
      · rw [hqp, hdir]; rfl
      · rw [hother q hqp]
        exact h q (List.mem_cons_of_mem p hq)
    obtain ⟨ih1, ih2, ih3⟩ := ih fs1 hrest
    refine ⟨hall ▸ ih1, ?_, ?_⟩
    · intro q hq
      rw [hall]
      rcases List.mem_cons.mp hq with hq | hq
      · subst hq
        by_cases hmem : q ∈ rest
        · exact ih2 q hmem
        · rw [ih3 q hmem, hdir]
      · exact ih2 q hq
    · intro q hq
      rw [hall, ih3 q (fun hc => hq (List.mem_cons_of_mem p hc)),
        hother q (fun hc => hq (hc ▸ List.mem_cons_self p rest))]

theorem FS.mkdirAll_dirs (ps : List FsPath) (fs : FS)
    (h : ∀ p ∈ ps, fs.lookup p = some Entry.dir) :
    fs.mkdirAll ps = (fs, true) := by
  induction ps with
  | nil => rfl
  | cons p rest ih =>
    have h1 : fs.mkdirOne p = some fs := by
      unfold FS.mkdirOne
      rw [h p (List.mem_cons_self p rest)]
    have hall : fs.mkdirAll (p :: rest) = fs.mkdirAll rest := by
      show (match fs.mkdirOne p with
            | none => (fs, false)
            | some fs2 => fs2.mkdirAll rest) = fs.mkdirAll rest
      rw [h1]
    rw [hall]
    exact ih (fun q hq => h q (List.mem_cons_of_mem p hq))

theorem FS.writeFile_eq (fs : FS) (p : FsPath) (c : String)
    (h : fs.lookup p ≠ some Entry.dir) :
    fs.writeFile p c = some (fs.insert p (Entry.file c)) := by
  unfold FS.writeFile
  rcases hl : fs.lookup p with _ | e
  · rfl
  · cases e with
    | file s => rfl
    | dir => exact absurd hl h

theorem FS.insert_insert (fs : FS) (p : FsPath) (e : Entry) :
    (fs.insert p e).insert p e = fs.insert p e := by
  unfold FS.insert
  congr 1
  rw [List.filter_cons_of_neg (by simp), List.filter_filter]
  simp only [Bool.and_self]

theorem mem_pathChain_length {p : FsPath} {q : FsPath}
    (h : q ∈ pathChain p) : q.length ≤ p.length := by
  induction p generalizing q with
  | nil => exact absurd h (List.not_mem_nil q)
  | cons c rest ih =>
    unfold pathChain at h
    rcases List.mem_cons.mp h with h | h
    · subst h; simp
    · obtain ⟨q1, hq1, hq⟩ := List.mem_map.mp h
      subst hq
      simpa using ih hq1

theorem self_not_mem_chain_parent (p : FsPath) (hp : p ≠ []) :
    p ∉ pathChain (parentPath p) := by
  intro hmem
  have h1 := mem_pathChain_length hmem
  unfold parentPath at h1
  rw [List.length_dropLast] at h1
  have h2 : 0 < p.length := List.length_pos.mpr hp
  omega

theorem assetPath_ne_nil (sp : FsPath) : assetPath sp ≠ [] := by
  unfold assetPath
  simp

/-! ### Characterizations of the branches of `runMain` -/

theorem runMain_missing (sp cwd : FsPath) (out : String) (fs : FS)
    (h : fs.lookup (assetPath sp) = none) :
    runMain sp cwd out fs =
      { outcome := Outcome.exited 1, stdout := ""
        stderr := "Asset not found: " ++ pathToString (assetPath sp) ++ "\n"
        fs := fs, trace := [Effect.statRead (assetPath sp)] } := by
  simp [runMain, h]

theorem runMain_stdout_eq (sp cwd : FsPath) (fs : FS) (css : String)
    (h : fs.lookup (assetPath sp) = some (Entry.file css)) :
    runMain sp cwd "-" fs =
      { outcome := Outcome.exited 0, stdout := css, stderr := "", fs := fs
        trace := [Effect.statRead (assetPath sp),
                  Effect.contentRead (assetPath sp),
                  Effect.wroteStdout css] } := by
  simp [runMain, FS.readText, h]

theorem runMain_dir_crash_eq (sp cwd : FsPath) (out : String) (fs : FS)
    (h : fs.lookup (assetPath sp) = some Entry.dir) :
    runMain sp cwd out fs =
      { outcome := Outcome.crashed, stdout := "", stderr := "", fs := fs
        trace := [Effect.statRead (assetPath sp),
                  Effect.contentRead (assetPath sp)] } := by
  simp [runMain, FS.readText, h]

theorem runMain_write_eq (sp cwd : FsPath) (out : String) (fs : FS)
    (css : String)
    (h1 : fs.lookup (assetPath sp) = some (Entry.file css))
    (h2 : out ≠ "-")
    (h3 : ∀ q ∈ pathChain (parentPath (resolvePath cwd out)),
        isFileEntry (fs.lookup q) = false)
    (h4 : fs.lookup (resolvePath cwd out) ≠ some Entry.dir) :
    runMain sp cwd out fs =
      { outcome := Outcome.exited 0, stdout := "", stderr := ""
        fs := ((fs.mkdirAll (pathChain (parentPath (resolvePath cwd out)))).1.insert
                 (resolvePath cwd out) (Entry.file css))
        trace := [Effect.statRead (assetPath sp),
                  Effect.contentRead (assetPath sp),
                  Effect.wroteFile (resolvePath cwd out) css] } := by
  obtain ⟨hmd2, hdirs, hoth⟩ :=
    FS.mkdirAll_spec (pathChain (parentPath (resolvePath cwd out))) fs h3
  have hPnil : resolvePath cwd out ≠ [] := by
    intro hc
    rw [hc, fs.lookup_nil] at h4
    exact h4 rfl
  have hPnm : resolvePath cwd out ∉ pathChain (parentPath (resolvePath cwd out)) :=
    self_not_mem_chain_parent _ hPnil
  have hwf : (fs.mkdirAll (pathChain (parentPath (resolvePath cwd out)))).1.writeFile
      (resolvePath cwd out) css =
      some ((fs.mkdirAll (pathChain (parentPath (resolvePath cwd out)))).1.insert
        (resolvePath cwd out) (Entry.file css)) :=
    FS.writeFile_eq _ _ _ (by rw [hoth _ hPnm]; exact h4)
  simp [runMain, FS.readText, h1, h2, hmd2, hwf]

theorem runMain_exited_one_iff (sp cwd : FsPath) (out : String) (fs : FS) :
    (runMain sp cwd out fs).outcome = Outcome.exited 1 ↔
      fs.lookup (assetPath sp) = none := by
  constructor
  · intro h
    by_contra hne
    revert h
    simp only [runMain]
    rw [if_neg hne]
    split
    · simp
    · split
      · simp
      · split
        · simp
        · split <;> simp
  · intro h
    rw [runMain_missing sp cwd out fs h]

theorem runMain_outputs (sp cwd : FsPath) (out : String) (fs : FS) :
    ¬(hasStdoutWrite (runMain sp cwd out fs).trace = true ∧
      hasFileWrite (runMain sp cwd out fs).trace = true) := by
  simp only [runMain]
  split
  · simp [hasStdoutWrite, hasFileWrite]
  · split
    · simp [hasStdoutWrite, hasFileWrite]
    · split
      · simp [hasStdoutWrite, hasFileWrite]
      · split
        · simp [hasStdoutWrite, hasFileWrite]
        · split <;> simp [hasStdoutWrite, hasFileWrite]

theorem runMain_readPaths (sp cwd : FsPath) (out : String) (fs : FS) :
    readPaths (runMain sp cwd out fs).trace =
      if fs.lookup (assetPath sp) = none then [assetPath sp]
      else [assetPath sp, assetPath sp] := by
  by_cases h : fs.lookup (assetPath sp) = none
  · rw [if_pos h, runMain_missing sp cwd out fs h]
    rfl
  · rw [if_neg h]
    simp only [runMain]
    rw [if_neg h]
    split
    · rfl
    · split
      · rfl
      · split
        · rfl
        · split <;> rfl

/-- The paths whose content is read in a trace. -/
def contentReads (tr : List Effect) : List FsPath :=
  tr.filterMap (fun e =>
    match e with
    | Effect.contentRead p => some p
    | _ => none)

theorem runMain_contentReads (sp cwd : FsPath) (out : String) (fs : FS) :
    contentReads (runMain sp cwd out fs).trace =
      if fs.lookup (assetPath sp) = none then [] else [assetPath sp] := by
  by_cases h : fs.lookup (assetPath sp) = none
  · rw [if_pos h, runMain_missing sp cwd out fs h]
    rfl
  · rw [if_neg h]
    simp only [runMain]
    rw [if_neg h]
    split
    · rfl
    · split
      · rfl
      · split
        · rfl
        · split <;> rfl

/-! ### Concrete instances used by the witnesses -/

/-- A resolved script location, as in the repository layout. -/
def specScript : FsPath := ["repo", "scripts", "apply_agentation_motion.py"]

/-- The asset text of the concrete example in the spec. -/
def specCss : String := "/* motion */\n"

/-- A filesystem holding the packaged asset. -/
def specFS : FS :=
  ⟨[(["repo", "assets", "agentation-motion.css"], Entry.file specCss)]⟩

/-- A filesystem with a directory sitting at the asset path. -/
def specFSdir : FS :=
  ⟨[(["repo", "assets", "agentation-motion.css"], Entry.dir)]⟩

/-! ### The claims -/

/-- C1: when the asset file exists and the destination is the stdout sentinel
`-` (which is also the default), standard output receives exactly the asset
text, with nothing appended or removed, stderr is empty, the filesystem is
untouched and the process exits with status 0. -/
theorem stdout_run_emits_asset_exactly (sp cwd : FsPath) (fs : FS)
    (css : String)
    (h : fs.lookup (assetPath sp) = some (Entry.file css)) :
    (runMain sp cwd "-" fs).stdout = css ∧
    (runMain sp cwd "-" fs).outcome = Outcome.exited 0 ∧
    (runMain sp cwd "-" fs).stderr = "" ∧
    (runMain sp cwd "-" fs).fs = fs := by
  rw [runMain_stdout_eq sp cwd fs css h]
  exact ⟨rfl, rfl, rfl, rfl⟩

theorem stdout_run_emits_asset_exactly_witness :
    (runMain specScript ["home"] "-" specFS).stdout = specCss :=
  (stdout_run_emits_asset_exactly specScript ["home"] specFS specCss
    (by decide)).1

/-- C2: when the asset file exists and the destination is a path other than
`-`, the run exits with status 0, writes nothing to stdout, leaves the
exact asset content in the destination file (overwriting any previous
file), has created every directory of the parent chain of the destination,
and
touches no other path.  The hypotheses `h3` and `h4` say that no unhandled
I/O error interferes: no regular file blocks the parent chain and no
directory sits at the destination. -/
theorem file_run_creates_dirs_and_writes_asset (sp cwd : FsPath)
    (out : String) (fs : FS) (css : String)
    (h1 : fs.lookup (assetPath sp) = some (Entry.file css))
    (h2 : out ≠ "-")
    (h3 : ∀ q ∈ pathChain (parentPath (resolvePath cwd out)),
        isFileEntry (fs.lookup q) = false)
    (h4 : fs.lookup (resolvePath cwd out) ≠ some Entry.dir) :
    (runMain sp cwd out fs).outcome = Outcome.exited 0 ∧
    (runMain sp cwd out fs).stdout = "" ∧
    (runMain sp cwd out fs).fs.lookup (resolvePath cwd out) =
      some (Entry.file css) ∧
    (∀ q ∈ pathChain (parentPath (resolvePath cwd out)),
        (runMain sp cwd out fs).fs.lookup q = some Entry.dir) ∧
    (∀ q, q ≠ resolvePath cwd out →
        q ∉ pathChain (parentPath (resolvePath cwd out)) →
        (runMain sp cwd out fs).fs.lookup q = fs.lookup q) := by
  obtain ⟨hmd2, hdirs, hoth⟩ := FS.mkdirAll_spec _ fs h3
  have hPnil : resolvePath cwd out ≠ [] := by
    intro hc
    rw [hc, fs.lookup_nil] at h4
    exact h4 rfl
  have hPnm := self_not_mem_chain_parent _ hPnil
  rw [runMain_write_eq sp cwd out fs css h1 h2 h3 h4]
  refine ⟨rfl, rfl, ?_, ?_, ?_⟩
  · show ((fs.mkdirAll (pathChain (parentPath (resolvePath cwd out)))).1.insert
      (resolvePath cwd out) (Entry.file css)).lookup (resolvePath cwd out) =
      some (Entry.file css)
    rw [FS.lookup_insert _ _ _ _ hPnil, if_pos rfl]
  · intro q hq
    have hqP : q ≠ resolvePath cwd out := fun hc => hPnm (hc ▸ hq)
    show ((fs.mkdirAll (pathChain (parentPath (resolvePath cwd out)))).1.insert
      (resolvePath cwd out) (Entry.file css)).lookup q = some Entry.dir
    rw [FS.lookup_insert _ _ _ _ hPnil, if_neg hqP]
    exact hdirs q hq
  · intro q hqP hqc
    show ((fs.mkdirAll (pathChain (parentPath (resolvePath cwd out)))).1.insert
      (resolvePath cwd out) (Entry.file css)).lookup q = fs.lookup q
    rw [FS.lookup_insert _ _ _ _ hPnil, if_neg hqP]
    exact hoth q hqc

theorem file_run_creates_dirs_and_writes_asset_witness :
    (runMain specScript ["home"] "build/out.css" specFS).fs.lookup
      (resolvePath ["home"] "build/out.css") = some (Entry.file specCss) :=
  (file_run_creates_dirs_and_writes_asset specScript ["home"] "build/out.css"
    specFS specCss (by decide) (by decide) (by decide) (by decide)).2.2.1

/-- C3: when no entry exists at the resolved asset path, the run writes the
diagnostic naming the resolved path to stderr, exits with status 1, writes
nothing to stdout, changes no file (the filesystem is untouched and the
trace holds no file write), and exit status 1 arises in no other
situation. -/
theorem missing_asset_controlled_failure (sp cwd : FsPath) (out : String)
    (fs : FS)
    (h : fs.lookup (assetPath sp) = none) :
    (runMain sp cwd out fs).outcome = Outcome.exited 1 ∧
    (runMain sp cwd out fs).stdout = "" ∧
    (runMain sp cwd out fs).stderr =
      "Asset not found: " ++ pathToString (assetPath sp) ++ "\n" ∧
    (runMain sp cwd out fs).fs = fs ∧
    hasFileWrite (runMain sp cwd out fs).trace = false ∧
    (∀ sp2 cwd2 : FsPath, ∀ out2 : String, ∀ fs2 : FS,
      (runMain sp2 cwd2 out2 fs2).outcome = Outcome.exited 1 →
        fs2.lookup (assetPath sp2) = none) := by
  rw [runMain_missing sp cwd out fs h]
  refine ⟨rfl, rfl, rfl, rfl, rfl, ?_⟩
  intro sp2 cwd2 out2 fs2 h2
  exact (runMain_exited_one_iff sp2 cwd2 out2 fs2).mp h2

theorem missing_asset_controlled_failure_witness :
    (runMain specScript ["home"] "-" ⟨[]⟩).stderr =
      "Asset not found: " ++ pathToString (assetPath specScript) ++ "\n" :=
  (missing_asset_controlled_failure specScript ["home"] "-" ⟨[]⟩
    (by decide)).2.2.1

/-- C4: every path the program reads is
program-root/assets/agentation-motion.css, where the program root is two
directory levels above the resolved location of the script itself, and the
paths
read do not depend on the working directory. -/
theorem asset_resolution_anchored_to_install (sp cwd cwd2 : FsPath)
    (out : String) (fs : FS) :
    (∀ p ∈ readPaths (runMain sp cwd out fs).trace,
        p = parentPath (parentPath sp) ++ ["assets", "agentation-motion.css"]) ∧
    readPaths (runMain sp cwd out fs).trace =
      readPaths (runMain sp cwd2 out fs).trace := by
  constructor
  · intro p hp
    rw [runMain_readPaths] at hp
    have hpa : p = assetPath sp := by
      by_cases h : fs.lookup (assetPath sp) = none
      · rw [if_pos h] at hp
        simpa using hp
      · rw [if_neg h] at hp
        rcases List.mem_cons.mp hp with h1 | h1
        · exact h1
        · simpa using h1
    rw [hpa]
    rfl
  · rw [runMain_readPaths, runMain_readPaths]

theorem asset_resolution_anchored_to_install_witness :
    (["repo", "assets", "agentation-motion.css"] : FsPath) =
      parentPath (parentPath specScript) ++
        ["assets", "agentation-motion.css"] :=
  (asset_resolution_anchored_to_install specScript ["home"] ["elsewhere"] "-"
    specFS).1 ["repo", "assets", "agentation-motion.css"] (by decide)

/-- C5: every path read is the one asset path; when the asset is present its
content is read exactly once; and no run performs both a stdout write and a
file write. -/
theorem single_asset_read_and_exclusive_output (sp cwd : FsPath)
    (out : String) (fs : FS) :
    (∀ p ∈ readPaths (runMain sp cwd out fs).trace, p = assetPath sp) ∧
    (fs.lookup (assetPath sp) ≠ none →
      contentReads (runMain sp cwd out fs).trace = [assetPath sp]) ∧
    ¬(hasStdoutWrite (runMain sp cwd out fs).trace = true ∧
      hasFileWrite (runMain sp cwd out fs).trace = true) := by
  refine ⟨?_, ?_, runMain_outputs sp cwd out fs⟩
  · intro p hp
    rw [runMain_readPaths] at hp
    by_cases h : fs.lookup (assetPath sp) = none
    · rw [if_pos h] at hp
      simpa using hp
    · rw [if_neg h] at hp
      rcases List.mem_cons.mp hp with h1 | h1
      · exact h1
      · simpa using h1
  · intro h
    rw [runMain_contentReads, if_neg h]

theorem single_asset_read_and_exclusive_output_witness :
    contentReads (runMain specScript ["home"] "-" specFS).trace =
      [assetPath specScript] :=
  (single_asset_read_and_exclusive_output specScript ["home"] "-"
    specFS).2.1 (by decide)

/-- C6: an invocation with no `--out` argument is the same invocation, with
all observable effects equal, as one with `--out -`. -/
theorem default_out_equals_dash (sp cwd : FsPath) (fs : FS) :
    runProgram sp cwd [] fs = runProgram sp cwd ["--out", "-"] fs := by
  have h1 : parseOut [] = some "-" := rfl
  have h2 : parseOut ["--out", "-"] = some "-" := by decide
  simp only [runProgram, h1, h2]

/-- C7: with the asset unchanged, running the emitter a second time on the
filesystem the first run produced gives the identical run result (same exit
status, outputs, effects and final filesystem), and in particular the second
run succeeds with status 0 although the parent directories now already
exist. -/
theorem file_run_idempotent (sp cwd : FsPath) (out : String) (fs : FS)
    (css : String)
    (h1 : fs.lookup (assetPath sp) = some (Entry.file css))
    (h2 : out ≠ "-")
    (h3 : ∀ q ∈ pathChain (parentPath (resolvePath cwd out)),
        isFileEntry (fs.lookup q) = false)
    (h4 : fs.lookup (resolvePath cwd out) ≠ some Entry.dir) :
    runMain sp cwd out ((runMain sp cwd out fs).fs) = runMain sp cwd out fs ∧
    (runMain sp cwd out ((runMain sp cwd out fs).fs)).outcome =
      Outcome.exited 0 := by
  obtain ⟨hmd2, hdirs, hoth⟩ := FS.mkdirAll_spec _ fs h3
  have hPnil : resolvePath cwd out ≠ [] := by
    intro hc
    rw [hc, fs.lookup_nil] at h4
    exact h4 rfl
  have hPnm := self_not_mem_chain_parent _ hPnil
  have hrw1 := runMain_write_eq sp cwd out fs css h1 h2 h3 h4
  have hfs1 : (runMain sp cwd out fs).fs =
      (fs.mkdirAll (pathChain (parentPath (resolvePath cwd out)))).1.insert
        (resolvePath cwd out) (Entry.file css) := by
    rw [hrw1]
  have hAnm : assetPath sp ∉ pathChain (parentPath (resolvePath cwd out)) := by
    intro hmem
    have hf := h3 _ hmem
    rw [h1] at hf
    exact Bool.noConfusion hf
  have h1' : ((runMain sp cwd out fs).fs).lookup (assetPath sp) =
      some (Entry.file css) := by
    rw [hfs1, FS.lookup_insert _ _ _ _ hPnil]
    by_cases hc : assetPath sp = resolvePath cwd out
    · rw [if_pos hc]
    · rw [if_neg hc, hoth _ hAnm, h1]
  have hdirs1 : ∀ q ∈ pathChain (parentPath (resolvePath cwd out)),
      ((runMain sp cwd out fs).fs).lookup q = some Entry.dir := by
    intro q hq
    have hqP : q ≠ resolvePath cwd out := fun hc => hPnm (hc ▸ hq)
    rw [hfs1, FS.lookup_insert _ _ _ _ hPnil, if_neg hqP]
    exact hdirs q hq
  have h3' : ∀ q ∈ pathChain (parentPath (resolvePath cwd out)),
      isFileEntry (((runMain sp cwd out fs).fs).lookup q) = false := by
    intro q hq
    rw [hdirs1 q hq]
    rfl
  have h4' : ((runMain sp cwd out fs).fs).lookup (resolvePath cwd out) ≠
      some Entry.dir := by
    rw [hfs1, FS.lookup_insert _ _ _ _ hPnil, if_pos rfl]
    intro hc
    exact Entry.noConfusion (Option.some.inj hc)
  have hrw2 := runMain_write_eq sp cwd out ((runMain sp cwd out fs).fs) css
    h1' h2 h3' h4'
  have hmdid : ((runMain sp cwd out fs).fs).mkdirAll
      (pathChain (parentPath (resolvePath cwd out))) =
      ((runMain sp cwd out fs).fs, true) :=
    FS.mkdirAll_dirs _ _ hdirs1
  have hfs2 : (((runMain sp cwd out fs).fs).mkdirAll
      (pathChain (parentPath (resolvePath cwd out)))).1.insert
        (resolvePath cwd out) (Entry.file css) = (runMain sp cwd out fs).fs := by
    rw [hmdid, hfs1]
    exact FS.insert_insert _ _ _
  constructor
  · rw [hrw2, hfs2, hrw1]
  · rw [hrw2]

theorem file_run_idempotent_witness :
    runMain specScript ["home"] "build/out.css"
        ((runMain specScript ["home"] "build/out.css" specFS).fs) =
      runMain specScript ["home"] "build/out.css" specFS :=
  (file_run_idempotent specScript ["home"] "build/out.css" specFS specCss
    (by decide) (by decide) (by decide) (by decide)).1

/-- C8: the paths read are identical across any two invocations that differ
only in the destination argument; the destination can redirect only where
the output goes, never which file is read. -/
theorem reads_independent_of_destination (sp cwd : FsPath) (fs : FS)
    (out out2 : String) :
    readPaths (runMain sp cwd out fs).trace =
      readPaths (runMain sp cwd out2 fs).trace := by
  rw [runMain_readPaths, runMain_readPaths]

/-- C9 counterexample: the sentinel test is exact string equality before any
path normalization, so passing `--out` the dash spelled with a leading dot
segment (the three-character string dot, slash, dash) writes a file whose
final name component is literally `-`: the claim that no invocation can
produce a file named `-` is false. -/
theorem dash_sentinel_counterexample :
    (runProgram specScript ["home"] ["--out", "./-"] specFS).fs.lookup
        ["home", "-"] = some (Entry.file specCss) ∧
    hasFileWrite
      (runProgram specScript ["home"] ["--out", "./-"] specFS).trace = true ∧
    List.getLast? ["home", "-"] = some "-" := by
  decide

/-- C9 amended: the exact string `-` is unconditionally the stdout sentinel:
a run with `--out -` never writes a file and leaves the filesystem
unchanged.  Other spellings of the same name, such as the dash behind a dot
segment, are however treated as file paths, so a file literally named `-`
can still be produced. -/
theorem dash_exact_never_writes_file (sp cwd : FsPath) (fs : FS) :
    hasFileWrite (runMain sp cwd "-" fs).trace = false ∧
    (runMain sp cwd "-" fs).fs = fs := by
  rcases hl : fs.lookup (assetPath sp) with _ | e
  · rw [runMain_missing sp cwd "-" fs hl]
    exact ⟨rfl, rfl⟩
  · cases e with
    | file c =>
      rw [runMain_stdout_eq sp cwd fs c hl]
      exact ⟨rfl, rfl⟩
    | dir =>
      rw [runMain_dir_crash_eq sp cwd "-" fs hl]
      exact ⟨rfl, rfl⟩

/-- C10: the controlled exit-1 branch is taken exactly when no entry of any
kind exists at the resolved asset path; a directory there passes the
existence check and the content read then fails as an uncontrolled crash,
not as the exit-1 path. -/
theorem missing_branch_iff_no_entry (sp cwd : FsPath) (out : String)
    (fs : FS) :
    ((runMain sp cwd out fs).outcome = Outcome.exited 1 ↔
      fs.lookup (assetPath sp) = none) ∧
    (fs.lookup (assetPath sp) = some Entry.dir →
      (runMain sp cwd out fs).outcome = Outcome.crashed) := by
  refine ⟨runMain_exited_one_iff sp cwd out fs, ?_⟩
  intro h
  rw [runMain_dir_crash_eq sp cwd out fs h]

theorem missing_branch_iff_no_entry_witness :
    (runMain specScript ["home"] "-" specFSdir).outcome = Outcome.crashed :=
  (missing_branch_iff_no_entry specScript ["home"] "-" specFSdir).2
    (by decide)

end AgentationMotion
